import Mathlib

/-!
Shallow embedding of `fluent-ffmpeg-simplified` (src/src/ffmpeg.ts, the
named-pipe stream bridge, and events) in Lean 4, together with theorems
settling the frozen claims about the repository.

JavaScript numbers are modelled by `JsNum`, an IEEE-754 binary64 value:
`NaN`, `±Infinity`, or a finite `±m·2^e` held in the canonical normal or
subnormal form. Construction from a decimal literal and the division by 100
round to nearest (ties to even) with overflow to infinity and gradual
underflow to zero, exactly as JS arithmetic does, and `toStr` implements the
ECMA-262 `Number::toString` rendering (shortest decimal that round-trips,
with the fixed/exponential notation rules), so the model prints precisely
what the program interpolates — e.g. `8.2 / 100` prints
`0.08199999999999999`. Optional TS fields become `Option`; JS truthiness of
a stored value is the explicit predicate spelled at each `if (x)` guard of
the source.
-/

namespace FFS

/-- An IEEE-754 binary64 value: `NaN`, a signed infinity, or a signed
finite `m·2^e`. Canonical finite form (as produced by every constructor
below): `m = 0` with `e = 0` for a zero, otherwise either
`2^52 ≤ m < 2^53` (normal) or `m < 2^52 ∧ e = -1074` (subnormal), so
structural equality is value equality (with `-0` kept distinct, as only
truthiness and printing observe a stored zero). -/
inductive JsNum where
  | nan
  | inf (neg : Bool)
  | finite (neg : Bool) (m : Nat) (e : Int)
  deriving DecidableEq, Repr

/-- Fuel-bounded binary length (`bitlen n = ⌊log₂ n⌋ + 1` for `n ≥ 1`);
fuel `n` always suffices. -/
def bitlenAux : Nat → Nat → Nat
  | 0, _ => 0
  | fuel + 1, n => if n ≤ 1 then n else bitlenAux fuel (n / 2) + 1

def bitlen (n : Nat) : Nat := bitlenAux n n

/-- Fuel-bounded decimal digit count. -/
def digitCountAux : Nat → Nat → Nat
  | 0, _ => 0
  | fuel + 1, n => if n ≤ 9 then 1 else digitCountAux fuel (n / 10) + 1

def digitCount (n : Nat) : Nat := digitCountAux n n

/-- `2^t ≤ A / B`, for an arbitrary integer `t`. -/
def le2pow (t : Int) (A B : Nat) : Bool :=
  if 0 ≤ t then 2 ^ t.toNat * B ≤ A else B ≤ A * 2 ^ (-t).toNat

/-- Round the positive rational `A / B` (`A, B ≥ 1`) to the nearest binary64
(ties to even): the canonical finite form, or positive infinity on
overflow, or zero on underflow below half the least subnormal. -/
def roundPosRat (A B : Nat) : JsNum :=
  let t0 : Int := (bitlen A : Int) - (bitlen B : Int) - 1
  let t : Int := if le2pow (t0 + 1) A B then t0 + 1 else t0
  let q : Int := max (t - 52) (-1074)
  let nd : Nat × Nat := if 0 ≤ q then (A, B * 2 ^ q.toNat) else (A * 2 ^ (-q).toNat, B)
  let quot := nd.1 / nd.2
  let rem := nd.1 % nd.2
  let m : Nat :=
    if 2 * rem > nd.2 then quot + 1
    else if 2 * rem < nd.2 then quot
    else if quot % 2 = 0 then quot else quot + 1
  let mq : Nat × Int := if m = 2 ^ 53 then (2 ^ 52, q + 1) else (m, q)
  if mq.2 > 971 then JsNum.inf false
  else if mq.1 = 0 then JsNum.finite false 0 0
  else JsNum.finite false mq.1 mq.2

/-- Signed rounding of `±A/B` to binary64. -/
def roundRat (neg : Bool) (A B : Nat) : JsNum :=
  if A = 0 then .finite neg 0 0
  else
    match roundPosRat A B with
    | .inf _ => .inf neg
    | .finite _ m e => .finite neg m e
    | .nan => .nan

/-- The binary64 nearest to the exact decimal `±D·10^E` (the value of a
parsed numeric literal): saturates to `±Infinity` above the largest double
and flushes to `±0` below half the least subnormal, as JS number conversion
does. -/
def ofDecimal (neg : Bool) (D : Nat) (E : Int) : JsNum :=
  if D = 0 then .finite neg 0 0
  else
    let ed : Int := E + (digitCount D : Int)
    if 310 ≤ ed then .inf neg
    else if ed ≤ -340 then .finite neg 0 0
    else if 0 ≤ E then roundRat neg (D * 10 ^ E.toNat) 1
    else roundRat neg D (10 ^ (-E).toNat)

/-- Embed an integer (exact up to `2^53`, rounded beyond, like a JS
number). -/
def JsNum.ofInt (i : Int) : JsNum :=
  if i = 0 then .finite false 0 0
  else roundRat (decide (i < 0)) i.natAbs 1

instance : OfNat JsNum n := ⟨JsNum.ofInt n⟩

/-- `Number.isFinite`. -/
def JsNum.isFinite : JsNum → Bool
  | .finite _ _ _ => true
  | _ => false

/-- `Number.isNaN`. -/
def JsNum.isNaN : JsNum → Bool
  | .nan => true
  | _ => false

/-- JS truthiness of a number: `NaN` and `±0` are falsy, everything else is
truthy. -/
def JsNum.truthy : JsNum → Bool
  | .nan => false
  | .inf _ => true
  | .finite _ m _ => m ≠ 0

/-- JS `x <= 0`: false for `NaN`, true for `-Infinity`, and sign/zero test
for finite values. -/
def JsNum.nonpos : JsNum → Bool
  | .nan => false
  | .inf neg => neg
  | .finite neg m _ => neg || m = 0

/-- The binary64 division `x / 100` the percentage path of `run` performs
(`const factor = size.percent / 100`): exact quotient rounded to nearest. -/
def JsNum.div100 : JsNum → JsNum
  | .nan => .nan
  | .inf neg => .inf neg
  | .finite neg m e =>
    if m = 0 then .finite neg 0 0
    else if 0 ≤ e then roundRat neg (m * 2 ^ e.toNat) 100
    else roundRat neg m (100 * 2 ^ (-e).toNat)

/-! ### Shortest round-trip decimal rendering (ECMA-262 Number::toString)

Digit generation is the Burger–Dybvig free-format algorithm: scale the
value and its half-gap margins to rationals, then emit decimal digits until
the produced prefix lies strictly inside the rounding interval of the
value (interval endpoints included when the mantissa is even, matching
round-to-nearest-even), choosing the closest — at a tie, even — final
digit. -/

/-- High-side stop test: the scaled value plus its upper margin reaches 1
(weakly, when the rounding interval is closed). -/
def tooHigh (inclusive : Bool) (R mp S : Nat) : Bool :=
  if inclusive then R + mp ≥ S else R + mp > S

/-- Multiply the common denominator by 10 until the value with its upper
margin drops below 1, counting the decimal exponent up. -/
def scaleUpS : Nat → Bool → Nat → Nat → Nat → Int → (Nat × Int)
  | 0, _, _, _, S, n => (S, n)
  | fuel + 1, inclusive, R, mp, S, n =>
    if tooHigh inclusive R mp S then scaleUpS fuel inclusive R mp (S * 10) (n + 1)
    else (S, n)

/-- Multiply the numerator and margins by 10 while even the scaled-up value
stays below 1, counting the decimal exponent down. -/
def scaleUpR : Nat → Bool → Nat → Nat → Nat → Nat → Int → (Nat × Nat × Nat × Int)
  | 0, _, R, mm, mp, _, n => (R, mm, mp, n)
  | fuel + 1, inclusive, R, mm, mp, S, n =>
    if tooHigh inclusive (R * 10) (mp * 10) S then (R, mm, mp, n)
    else scaleUpR fuel inclusive (R * 10) (mm * 10) (mp * 10) S (n - 1)

/-- Emit digits until the remainder is within the low margin or the digit
rounded up is within the high margin; the final digit picks the closest
(tie: even) representative. -/
def genDigits : Nat → Bool → Nat → Nat → Nat → Nat → List Nat
  | 0, _, _, _, _, _ => []
  | fuel + 1, inclusive, R, mm, mp, S =>
    let R := R * 10
    let mm := mm * 10
    let mp := mp * 10
    let d := R / S
    let R := R % S
    let low := if inclusive then R ≤ mm else R < mm
    let high := tooHigh inclusive R mp S
    if low then
      if high then
        (if 2 * R > S then d + 1 else if 2 * R < S then d
         else if d % 2 = 0 then d else d + 1) :: []
      else d :: []
    else
      if high then (d + 1) :: []
      else d :: genDigits fuel inclusive R mm mp S

/-- Add one to a reversed digit list, with carry. -/
def carryRev : List Nat → List Nat
  | [] => [1]
  | d :: ds => if d + 1 ≤ 9 then (d + 1) :: ds else 0 :: carryRev ds

/-- Resolve a possible trailing `10` produced by the round-up branch of
`genDigits`. -/
def fixCarry (ds : List Nat) (n : Int) : List Nat × Int :=
  match ds.reverse with
  | 10 :: rest =>
    let fixed := (0 :: carryRev rest).reverse
    if fixed.length > ds.length then (fixed.dropLast, n + 1) else (fixed, n)
  | _ => (ds, n)

def stripTrailingZeros (ds : List Nat) : List Nat :=
  (ds.reverse.dropWhile (fun d => d = 0)).reverse

/-- Shortest decimal digits and position for the positive finite binary64
`m·2^e`: returns `(digits, n)` with the value written `0.d₁d₂…·10^n`. The
lower gap is halved at a normal power-of-two mantissa boundary. -/
def shortestDigits (m : Nat) (e : Int) : List Nat × Int :=
  let boundary : Bool := m = 2 ^ 52 && e ≠ -1074
  let inclusive : Bool := m % 2 = 0
  let RSmm : Nat × Nat × Nat × Nat :=
    if 0 ≤ e then
      (m * 2 ^ (e.toNat + 2), 4,
        if boundary then 2 ^ e.toNat else 2 ^ (e.toNat + 1), 2 ^ (e.toNat + 1))
    else
      (m * 4, 2 ^ ((-e).toNat + 2), if boundary then 1 else 2, 2)
  let R := RSmm.1
  let S := RSmm.2.1
  let mm := RSmm.2.2.1
  let mp := RSmm.2.2.2
  let Sn := scaleUpS 1400 inclusive R mp S 0
  let Rn := scaleUpR 1400 inclusive R mm mp Sn.1 Sn.2
  let ds := genDigits 60 inclusive Rn.1 Rn.2.1 Rn.2.2.1 Sn.1
  let fixed := fixCarry ds Rn.2.2.2
  (stripTrailingZeros fixed.1, fixed.2)

def digitsStr (ds : List Nat) : String :=
  String.mk (ds.map (fun d => Char.ofNat (d + Char.toNat '0')))

def zeros (k : Nat) : String := String.mk (List.replicate k '0')

/-- The ECMA-262 Number::toString notation rules over the shortest digits
`ds` at position `n`: plain integer form for `k ≤ n ≤ 21`, an internal
decimal point for `0 < n ≤ 21`, a leading `0.` with padding zeros for
`-6 < n ≤ 0`, exponential notation otherwise. -/
def renderDecimal (ds : List Nat) (n : Int) : String :=
  let k : Int := ds.length
  if k ≤ n ∧ n ≤ 21 then digitsStr ds ++ zeros (n - k).toNat
  else if 0 < n ∧ n ≤ 21 then
    digitsStr (ds.take n.toNat) ++ "." ++ digitsStr (ds.drop n.toNat)
  else if -6 < n ∧ n ≤ 0 then "0." ++ zeros (-n).toNat ++ digitsStr ds
  else
    let mant :=
      match ds with
      | [d] => digitsStr [d]
      | d :: rest => digitsStr [d] ++ "." ++ digitsStr rest
      | [] => "0"
    let expo := n - 1
    mant ++ (if 0 ≤ expo then "e+" ++ toString expo.toNat else "e-" ++ toString (-expo).toNat)

/-- JS `Number#toString` (the `${v}` interpolation): `NaN`, signed
`Infinity`, `"0"` for either zero, else sign plus the shortest round-trip
decimal rendering. -/
def JsNum.toStr : JsNum → String
  | .nan => "NaN"
  | .inf neg => if neg then "-Infinity" else "Infinity"
  | .finite neg m e =>
    if m = 0 then "0"
    else
      let dn := shortestDigits m e
      (if neg then "-" else "") ++ renderDecimal dn.1 dn.2

/-- Digit list to natural number, most significant first. -/
def digitsToNat (ds : List Char) : Nat :=
  ds.foldl (fun acc c => acc * 10 + (c.toNat - Char.toNat '0')) 0

/-- JS whitespace test (the leading characters `parseFloat`/`parseInt` skip). -/
def isJsWs (c : Char) : Bool :=
  c = ' ' || c = '\t' || c = '\n' || c = '\r'

/-- Exponent part of a JS float literal: optional sign then digits.
An invalid exponent contributes `0` (JS stops parsing before the `e`). -/
def jsParseExp (cs : List Char) : Int :=
  let (sgn, r) : Int × List Char :=
    match cs with
    | '-' :: rest => (-1, rest)
    | '+' :: rest => (1, rest)
    | _ => (1, cs)
  let ds := r.takeWhile Char.isDigit
  if ds = [] then 0 else sgn * (digitsToNat ds : Int)

/-- JS `Number.parseFloat`: skip leading whitespace, optional sign, then the
longest numeric prefix (digits, optional fraction, optional exponent), and
convert the exact decimal to the nearest binary64 — `NaN` when no digits
are found, `±Infinity` for an `Infinity` literal or on overflow, `±0` on
underflow. -/
def jsParseFloat (s : String) : JsNum :=
  let cs := s.toList.dropWhile isJsWs
  let (neg, cs) : Bool × List Char :=
    match cs with
    | '-' :: rest => (true, rest)
    | '+' :: rest => (false, rest)
    | _ => (false, cs)
  if cs.take 8 = "Infinity".toList then JsNum.inf neg
  else
    let intDigits := cs.takeWhile Char.isDigit
    let cs1 := cs.dropWhile Char.isDigit
    let (fracDigits, cs2) : List Char × List Char :=
      match cs1 with
      | '.' :: rest => (rest.takeWhile Char.isDigit, rest.dropWhile Char.isDigit)
      | _ => ([], cs1)
    if intDigits = [] ∧ fracDigits = [] then JsNum.nan
    else
      let D := digitsToNat (intDigits ++ fracDigits)
      let ex : Int :=
        match cs2 with
        | 'e' :: rest => jsParseExp rest
        | 'E' :: rest => jsParseExp rest
        | _ => 0
      ofDecimal neg D (ex - fracDigits.length)

/-- Hex digit test for the `0x` branch of `parseInt`. -/
def isHexDigit (c : Char) : Bool :=
  c.isDigit || ('a' ≤ c && c ≤ 'f') || ('A' ≤ c && c ≤ 'F')

/-- Hex digit list to natural number. -/
def hexToNat (ds : List Char) : Nat :=
  ds.foldl (fun acc c =>
    acc * 16 + (if c.isDigit then c.toNat - Char.toNat '0'
                else if 'a' ≤ c then c.toNat - Char.toNat 'a' + 10
                else c.toNat - Char.toNat 'A' + 10)) 0

/-- JS `Number.parseInt` with no radix argument: skip whitespace, optional
sign, a `0x`/`0X` prefix selects hexadecimal, otherwise the longest decimal
digit prefix is taken; the integer becomes the nearest binary64 (`NaN` when
no digits are found, `±Infinity` past the overflow threshold). -/
def jsParseInt (s : String) : JsNum :=
  let cs := s.toList.dropWhile isJsWs
  let (neg, cs) : Bool × List Char :=
    match cs with
    | '-' :: rest => (true, rest)
    | '+' :: rest => (false, rest)
    | _ => (false, cs)
  match cs with
  | '0' :: 'x' :: rest =>
    let ds := rest.takeWhile isHexDigit
    if ds = [] then .nan else roundRat neg (hexToNat ds) 1
  | '0' :: 'X' :: rest =>
    let ds := rest.takeWhile isHexDigit
    if ds = [] then .nan else roundRat neg (hexToNat ds) 1
  | _ =>
    let ds := cs.takeWhile Char.isDigit
    if ds = [] then .nan else roundRat neg (digitsToNat ds) 1

/-! ## Data model (ffmpeg.ts types) -/

/-- `Time = number | TimeString | TimeStringWithMilliseconds`. -/
inductive Time where
  | num (n : JsNum)
  | str (s : String)
  deriving DecidableEq, Repr

/-- JS truthiness of a stored `Time` (`if (startTime)`): `0` and `""` are
falsy. -/
def Time.truthy : Time → Bool
  | .num n => n.truthy
  | .str s => s ≠ ""

/-- `startTime.toString()` / `duration.toString()`. -/
def Time.toStr : Time → String
  | .num n => n.toStr
  | .str s => s

/-- `Bitrate = number | `${number}` | `${number}k``. -/
inductive Bitrate where
  | num (n : JsNum)
  | str (s : String)
  deriving DecidableEq, Repr

/-- JS truthiness of a stored `Bitrate` (`if (bitrate)`). -/
def Bitrate.truthy : Bitrate → Bool
  | .num n => n.truthy
  | .str s => s ≠ ""

/-- `bitrate.toString()`. -/
def Bitrate.toStr : Bitrate → String
  | .num n => n.toStr
  | .str s => s

/-- Options of a structured filter: raw string, ordered list, or key-value
mapping (insertion order preserved; values are modelled post-interpolation,
as the strings JS template substitution produces). -/
inductive FilterOptions where
  | str (s : String)
  | list (l : List String)
  | record (kvs : List (String × String))
  deriving DecidableEq, Repr

/-- `Filter = string | { filter, options }`. -/
inductive Filter where
  | str (s : String)
  | structured (filter : String) (options : FilterOptions)
  deriving DecidableEq, Repr

/-- `filtersToString` (ffmpeg.ts lines 83–95): plain filter as-is; structured
filter as `name=opts` with a raw string kept, a list colon-joined, a mapping
rendered as `key=value` pairs colon-joined in insertion order; the filters
are comma-joined. -/
def filtersToString (filters : List Filter) : String :=
  String.intercalate "," (filters.map fun el =>
    match el with
    | .str s => s
    | .structured name opts =>
      let optsStr :=
        match opts with
        | .str s => s
        | .list l => String.intercalate ":" l
        | .record kvs => String.intercalate ":" (kvs.map fun kv => kv.1 ++ "=" ++ kv.2)
      name ++ "=" ++ optsStr)

/-- The stored size of a video stream: `{width, height?}`,
`{width: undefined, height}`, or `{percent}` (dimensions are `parseInt`
results, hence binary64 numbers). -/
inductive SizeVal where
  | wh (width : Option JsNum) (height : Option JsNum)
  | percent (p : JsNum)
  deriving DecidableEq, Repr

/-- Input source: a file path, or a readable stream bridged to a named-pipe
endpoint whose address is `url` (`StreamInput(src).url`). -/
inductive Src where
  | file (path : String)
  | stream (url : String)
  deriving DecidableEq, Repr

/-- Output destination: a file path, or a writable stream (plus pipe options,
irrelevant to argument building) bridged to an endpoint with address `url`. -/
inductive Dst where
  | file (path : String)
  | stream (url : String)
  deriving DecidableEq, Repr

/-- `InputSettings`. -/
structure InputSettings where
  src : Src
  format : Option String := none
  fps : Option JsNum := none
  readrateNative : Option Bool := none
  startTime : Option Time := none
  loop : Option Bool := none
  extraOpts : Option (List String) := none
  deriving DecidableEq, Repr

/-- `AudioSettings`. -/
structure AudioSettings where
  codec : Option String := none
  bitrate : Option Bitrate := none
  channels : Option JsNum := none
  freq : Option JsNum := none
  quality : Option JsNum := none
  filters : Option (List Filter) := none
  deriving DecidableEq, Repr

/-- `VideoSettings`. -/
structure VideoSettings where
  codec : Option String := none
  bitrate : Option Bitrate := none
  filters : Option (List Filter) := none
  fps : Option JsNum := none
  frames : Option JsNum := none
  size : Option SizeVal := none
  deriving DecidableEq, Repr

/-- `OutputSettings`. `audio`/`video` being `none` is the disabled marker
(`noAudio`/`noVideo` assign `undefined`); a fresh output holds
`some {}` for both. -/
structure OutputSettings where
  dst : Dst
  audio : Option AudioSettings := none
  video : Option VideoSettings := none
  format : Option String := none
  duration : Option Time := none
  startTime : Option Time := none
  extraOpts : Option (List String) := none
  deriving DecidableEq, Repr

/-! ## Argument lowering (the body of `run`, ffmpeg.ts lines 312–410) -/

/-- Truthiness guard on an optional string field (`if (format)`):
an absent field and the empty string are both falsy. -/
def optStr (o : Option String) (tokens : String → List String) : List String :=
  match o with
  | some s => if s ≠ "" then tokens s else []
  | none => []

/-- Truthiness guard on an optional number field (`if (fps)`). -/
def optNum (o : Option JsNum) (tokens : JsNum → List String) : List String :=
  match o with
  | some n => if n.truthy then tokens n else []
  | none => []

/-- Tokens of one input, in the emission order of the `run` input loop:
extra raw options, `-f`, `-r`, `-re`, `-ss`, `-loop -1`, then `-i` and the
source path or bridge address. -/
def inputTokens (input : InputSettings) : List String :=
  (match input.extraOpts with | some opts => opts | none => [])
  ++ optStr input.format (fun f => ["-f", f])
  ++ optNum input.fps (fun fps => ["-r", fps.toStr])
  ++ (if input.readrateNative = some true then ["-re"] else [])
  ++ (match input.startTime with
      | some t => if t.truthy then ["-ss", t.toStr] else []
      | none => [])
  ++ (if input.loop = some true then ["-loop", "-1"] else [])
  ++ (match input.src with
      | .file p => ["-i", p]
      | .stream url => ["-i", url])

/-- Audio block of one output (`if (!audio) -an else …`). -/
def audioArgs (audio : Option AudioSettings) : List String :=
  match audio with
  | none => ["-an"]
  | some a =>
    optStr a.codec (fun c => ["-c:a", c])
    ++ (match a.bitrate with
        | some b => if b.truthy then ["-b:a", b.toStr] else []
        | none => [])
    ++ optNum a.channels (fun c => ["-ac", c.toStr])
    ++ optNum a.freq (fun f => ["-ar", f.toStr])
    ++ optNum a.quality (fun q => ["-q:a", q.toStr])
    ++ (match a.filters with
        | some fs => ["-af", filtersToString fs]
        | none => [])

/-- The `scale` filter `run` derives from a stored size: a percentage becomes
even-dimension truncation expressions over `iw`/`ih` with the factor
`percent / 100` interpolated; explicit dimensions use the given value with
`-2` for a falsy (absent or zero) one. -/
def sizeScaleFilter : SizeVal → Filter
  | .percent p =>
    let factor := p.div100
    .structured "scale" (.record
      [("w", "trunc(iw*" ++ factor.toStr ++ "/2)*2"),
       ("h", "trunc(ih*" ++ factor.toStr ++ "/2)*2")])
  | .wh width height =>
    .structured "scale" (.record
      [("w", match width with
             | some w => if w.truthy then w.toStr else "-2"
             | none => "-2"),
       ("h", match height with
             | some h => if h.truthy then h.toStr else "-2"
             | none => "-2")])

/-- Video block of one output (`if (!video) -vn else …`): codec, bitrate,
frame rate, frame cap, then the resolved filters (explicit filters plus the
size-derived scale filter) emitted as one `-vf` flag only when non-empty. -/
def videoArgs (video : Option VideoSettings) : List String :=
  match video with
  | none => ["-vn"]
  | some v =>
    optStr v.codec (fun c => ["-c:v", c])
    ++ (match v.bitrate with
        | some b => if b.truthy then ["-b:v", b.toStr] else []
        | none => [])
    ++ optNum v.fps (fun fps => ["-r", fps.toStr])
    ++ optNum v.frames (fun n => ["-frames:v", n.toStr])
    ++ (let resolvedFilters :=
          (match v.filters with | some fs => fs | none => [])
          ++ (match v.size with | some sz => [sizeScaleFilter sz] | none => [])
        if resolvedFilters.length ≠ 0 then ["-vf", filtersToString resolvedFilters] else [])

/-- Tokens of one output, in the emission order of the `run` output loop:
`-f`, `-ss`, `-t`, audio block, video block, extra raw options, then the
destination path or bridge address. -/
def outputTokens (output : OutputSettings) : List String :=
  optStr output.format (fun f => ["-f", f])
  ++ (match output.startTime with
      | some t => if t.truthy then ["-ss", t.toStr] else []
      | none => [])
  ++ (match output.duration with
      | some t => if t.truthy then ["-t", t.toStr] else []
      | none => [])
  ++ audioArgs output.audio
  ++ videoArgs output.video
  ++ (match output.extraOpts with | some opts => opts | none => [])
  ++ (match output.dst with
      | .file p => [p]
      | .stream url => [url])

/-- The argument vector `run` assembles: the input loop then the output
loop, each appending to the mutable `args`. -/
def buildArgs (inputs : List InputSettings) (outputs : List OutputSettings) : List String :=
  outputs.foldl (fun args output => args ++ outputTokens output)
    (inputs.foldl (fun args input => args ++ inputTokens input) [])

/-! ## Size parsing (the `size` method, ffmpeg.ts lines 251–276) -/

/-- Split a character list at every separator occurrence (accumulator holds
the current chunk reversed). -/
def splitOnCharAux (sep : Char) : List Char → List Char → List (List Char)
  | [], acc => [acc.reverse]
  | c :: cs, acc =>
    if c = sep then acc.reverse :: splitOnCharAux sep cs []
    else splitOnCharAux sep cs (c :: acc)

/-- JS `String#split` with a one-character separator: `"0x100"` splits to
`["0", "100"]`, `"abc"` to `["abc"]`, `"?x?"` to `["?", "?"]`, and the
empty string to `[""]`. -/
def jsSplit (s : String) (sep : Char) : List String :=
  (splitOnCharAux sep s.toList []).map String.mk

/-- JS `size.endsWith("%")`. -/
def endsWithPercent (s : String) : Bool :=
  decide (s.toList.getLast? = some '%')

/-- JS `size.substring(0, size.length - 1)`. -/
def dropLastChar (s : String) : String := String.mk s.toList.dropLast

/-- Parsing/validation part of `size(size)`: the `%` path parses the prefix
with `parseFloat` and rejects via `!Number.isFinite(percent) || percent <= 0`
(saturation to `Infinity` and underflow to `0` both reject); the `WxH` path
splits on `"x"`, rejects a missing token, maps `"?"` to `undefined` and
anything else through `parseInt`, rejects a `NaN` or non-positive explicit
dimension (`Number.isNaN(w) || w <= 0`), then stores `{width, height}` when
`width` is truthy, `{width: undefined, height}` when only `height` is, and
rejects both dimensions unknown. -/
def parseSize (size : String) : Except String SizeVal :=
  if endsWithPercent size then
    let percentStr := dropLastChar size
    let percent := jsParseFloat percentStr
    if percent.isFinite = false ∨ percent.nonpos = true then .error ("Invalid size: " ++ size)
    else .ok (.percent percent)
  else
    let parts := jsSplit size 'x'
    let widthStr := parts.headD ""
    let heightStr := (parts.drop 1).headD ""
    if widthStr = "" ∨ heightStr = "" then .error ("Invalid size: " ++ size)
    else
      let width : Option JsNum :=
        if widthStr = "?" then none else some (jsParseInt widthStr)
      let height : Option JsNum :=
        if heightStr = "?" then none else some (jsParseInt heightStr)
      let widthBad : Bool :=
        match width with
        | some w => w.isNaN || w.nonpos
        | none => false
      let heightBad : Bool :=
        match height with
        | some h => h.isNaN || h.nonpos
        | none => false
      if widthBad then .error ("Invalid width: " ++ widthStr)
      else if heightBad then .error ("Invalid height: " ++ heightStr)
      else
        let widthTruthy : Bool :=
          match width with | some w => w.truthy | none => false
        let heightTruthy : Bool :=
          match height with | some h => h.truthy | none => false
        if widthTruthy then .ok (.wh width height)
        else if heightTruthy then .ok (.wh none height)
        else .error "Width and height can't both be unknown"

/-! ## Diagnostic ring buffer (`processStderr`, ffmpeg.ts lines 299–304) -/

/-- One `processStderr` buffer update: append the line, then, when the
configured maximum is truthy (nonzero) and the length strictly exceeds it,
keep `slice(length - stdoutLines)`. The slice start is positive whenever the
guard fires, so it is a `drop`; a negative maximum makes the start exceed
the length. -/
def processLine (stdoutLines : Int) (lines : List String) (line : String) : List String :=
  if stdoutLines ≠ 0 ∧ ((lines ++ [line]).length : Int) > stdoutLines then
    (lines ++ [line]).drop (((lines ++ [line]).length : Int) - stdoutLines).toNat
  else lines ++ [line]

/-- Feed a whole sequence of diagnostic lines through the buffer, starting
empty. -/
def feedLines (stdoutLines : Int) (ls : List String) : List String :=
  ls.foldl (processLine stdoutLines) []

/-! ## The command builder (`FFmpegCommand`) -/

/-- Constructor `Options` (all optional; `number` counts modelled as
integers). -/
structure Options where
  timeout : Option JsNum := none
  niceness : Option Int := none
  priority : Option JsNum := none
  stdoutLines : Option Int := none
  deriving DecidableEq, Repr

/-- Builder state: resolved options (constructor merges
`{ niceness: 0, stdoutLines: 100, ...options }`), the input and output
spec lists, whether `_proc` has been assigned, and the diagnostic buffer. -/
structure FFmpegCommand where
  niceness : Int := 0
  stdoutLines : Int := 100
  inputs : List InputSettings := []
  outputs : List OutputSettings := []
  procSet : Bool := false
  stderrLines : List String := []
  deriving DecidableEq, Repr

/-- `new FFmpegCommand(options)`. -/
def mkCommand (options : Option Options) : FFmpegCommand :=
  match options with
  | none => {}
  | some o =>
    { niceness := o.niceness.getD 0
      stdoutLines := o.stdoutLines.getD 100 }

namespace FFmpegCommand

/-- `input(src)`: appends a fresh `InputSettings` holding only the source. -/
def input (c : FFmpegCommand) (src : Src) : FFmpegCommand :=
  { c with inputs := c.inputs ++ [{ src }] }

/-- `_getLastInput` + mutation of the returned settings object: errors when
no input was added. -/
def withLastInput (c : FFmpegCommand) (f : InputSettings → InputSettings) :
    Except String FFmpegCommand :=
  match c.inputs.getLast? with
  | none => .error "No input added. Please add an input"
  | some last => .ok { c with inputs := c.inputs.dropLast ++ [f last] }

/-- `inputFormat(format)`. -/
def inputFormat (c : FFmpegCommand) (format : String) : Except String FFmpegCommand :=
  c.withLastInput fun i => { i with format := some format }

/-- `inputFPS(fps)`. -/
def inputFPS (c : FFmpegCommand) (fps : JsNum) : Except String FFmpegCommand :=
  c.withLastInput fun i => { i with fps := some fps }

/-- `native()`. -/
def native (c : FFmpegCommand) : Except String FFmpegCommand :=
  c.withLastInput fun i => { i with readrateNative := some true }

/-- `seekInput(time)`. -/
def seekInput (c : FFmpegCommand) (time : Time) : Except String FFmpegCommand :=
  c.withLastInput fun i => { i with startTime := some time }

/-- `loop(length)`: a truthy argument is rejected before the last input is
even looked up. -/
def loop (c : FFmpegCommand) (lengthTruthy : Bool) : Except String FFmpegCommand :=
  if lengthTruthy then .error "Please specify loop output duration on the output instead"
  else c.withLastInput fun i => { i with loop := some true }

/-- `inputOptions(...options)`: the free-form strings are tokenized by the
external tokenizer; the model receives the resulting flat token list and
appends it to the input's extra options. -/
def inputOptions (c : FFmpegCommand) (options : List String) : Except String FFmpegCommand :=
  c.withLastInput fun i => { i with extraOpts := some ((i.extraOpts.getD []) ++ options) }

/-- `output(dst)`: appends a fresh `OutputSettings` with audio and video both
initialized to enabled empty settings. -/
def output (c : FFmpegCommand) (dst : Dst) : FFmpegCommand :=
  { c with outputs := c.outputs ++ [{ dst, audio := some {}, video := some {} }] }

/-- `_getLastOutput` + mutation: errors when no output was added. -/
def withLastOutput (c : FFmpegCommand) (f : OutputSettings → OutputSettings) :
    Except String FFmpegCommand :=
  match c.outputs.getLast? with
  | none => .error "No output added. Please add an output"
  | some last => .ok { c with outputs := c.outputs.dropLast ++ [f last] }

/-- `outputOptions(...options)` (tokens pre-flattened as for
`inputOptions`). -/
def outputOptions (c : FFmpegCommand) (options : List String) : Except String FFmpegCommand :=
  c.withLastOutput fun o => { o with extraOpts := some ((o.extraOpts.getD []) ++ options) }

/-- `noAudio()`: sets the last output's audio settings to the disabled
marker. -/
def noAudio (c : FFmpegCommand) : Except String FFmpegCommand :=
  c.withLastOutput fun o => { o with audio := none }

/-- `setAudioProps`: errors when no output exists or the last output's audio
is disabled; otherwise mutates the audio settings. -/
def setAudioProps (c : FFmpegCommand) (f : AudioSettings → AudioSettings) :
    Except String FFmpegCommand :=
  match c.outputs.getLast? with
  | none => .error "No output added. Please add an output"
  | some o =>
    match o.audio with
    | none => .error "Audio disabled"
    | some a => .ok { c with outputs := c.outputs.dropLast ++ [{ o with audio := some (f a) }] }

/-- `audioCodec(codec)`. -/
def audioCodec (c : FFmpegCommand) (codec : String) : Except String FFmpegCommand :=
  c.setAudioProps fun a => { a with codec := some codec }

/-- `audioBitrate(bitrate)`. -/
def audioBitrate (c : FFmpegCommand) (bitrate : Bitrate) : Except String FFmpegCommand :=
  c.setAudioProps fun a => { a with bitrate := some bitrate }

/-- `audioChannels(count)`. -/
def audioChannels (c : FFmpegCommand) (count : JsNum) : Except String FFmpegCommand :=
  c.setAudioProps fun a => { a with channels := some count }

/-- `audioFrequency(freq)`. -/
def audioFrequency (c : FFmpegCommand) (freq : JsNum) : Except String FFmpegCommand :=
  c.setAudioProps fun a => { a with freq := some freq }

/-- `audioQuality(q)`. -/
def audioQuality (c : FFmpegCommand) (q : JsNum) : Except String FFmpegCommand :=
  c.setAudioProps fun a => { a with quality := some q }

/-- `audioFilters(...filters)` (filters pre-flattened): appends to the audio
filter list; same "Audio disabled" check as the other audio setters. -/
def audioFilters (c : FFmpegCommand) (filters : List Filter) : Except String FFmpegCommand :=
  c.setAudioProps fun a => { a with filters := some ((a.filters.getD []) ++ filters) }

/-- `noVideo()`. -/
def noVideo (c : FFmpegCommand) : Except String FFmpegCommand :=
  c.withLastOutput fun o => { o with video := none }

/-- `setVideoProps`: errors when no output exists or the last output's video
is disabled. -/
def setVideoProps (c : FFmpegCommand) (f : VideoSettings → VideoSettings) :
    Except String FFmpegCommand :=
  match c.outputs.getLast? with
  | none => .error "No output added. Please add an output"
  | some o =>
    match o.video with
    | none => .error "Video disabled"
    | some v => .ok { c with outputs := c.outputs.dropLast ++ [{ o with video := some (f v) }] }

/-- `videoCodec(codec)`. -/
def videoCodec (c : FFmpegCommand) (codec : String) : Except String FFmpegCommand :=
  c.setVideoProps fun v => { v with codec := some codec }

/-- `videoBitrate(bitrate)`. -/
def videoBitrate (c : FFmpegCommand) (bitrate : Bitrate) : Except String FFmpegCommand :=
  c.setVideoProps fun v => { v with bitrate := some bitrate }

/-- `fps(fps)`. -/
def fps (c : FFmpegCommand) (fpsVal : JsNum) : Except String FFmpegCommand :=
  c.setVideoProps fun v => { v with fps := some fpsVal }

/-- `frames(count)`. -/
def frames (c : FFmpegCommand) (count : JsNum) : Except String FFmpegCommand :=
  c.setVideoProps fun v => { v with frames := some count }

/-- `size(size)`: validation (`parseSize`) happens before `setVideoProps`. -/
def size (c : FFmpegCommand) (sizeStr : String) : Except String FFmpegCommand :=
  match parseSize sizeStr with
  | .error e => .error e
  | .ok val => c.setVideoProps fun v => { v with size := some val }

/-- `videoFilters(...filters)` (pre-flattened). -/
def videoFilters (c : FFmpegCommand) (filters : List Filter) : Except String FFmpegCommand :=
  c.setVideoProps fun v => { v with filters := some ((v.filters.getD []) ++ filters) }

/-- `duration(dur)`. -/
def duration (c : FFmpegCommand) (dur : Time) : Except String FFmpegCommand :=
  c.withLastOutput fun o => { o with duration := some dur }

/-- `seek(start)`. -/
def seek (c : FFmpegCommand) (start : Time) : Except String FFmpegCommand :=
  c.withLastOutput fun o => { o with startTime := some start }

/-- `format(format)`. -/
def format (c : FFmpegCommand) (fmt : String) : Except String FFmpegCommand :=
  c.withLastOutput fun o => { o with format := some fmt }

/-- One buffer update of the instance (`processStderr`). -/
def processStderr (c : FFmpegCommand) (line : String) : FFmpegCommand :=
  { c with stderrLines := processLine c.stdoutLines c.stderrLines line }

/-- `run()` up to and including argument assembly and the `_proc`
assignment: a second run, or zero inputs, or zero outputs is a synchronous
usage error; otherwise the assembled argument vector is produced and the
instance is marked as run. -/
def run (c : FFmpegCommand) : Except String (List String × FFmpegCommand) :=
  if c.procSet then .error "This instance is already run"
  else if c.inputs.length = 0 then .error "No inputs specified"
  else if c.outputs.length = 0 then .error "No outputs specified"
  else .ok (buildArgs c.inputs c.outputs, { c with procSet := true })

end FFmpegCommand

/-! ## Builder call traces -/

/-- One chainable API call (arguments already tokenized/flattened where the
source delegates that to external collaborators). -/
inductive Call where
  | input (src : Src)
  | inputFormat (format : String)
  | inputFPS (fps : JsNum)
  | native
  | seekInput (time : Time)
  | loop (lengthTruthy : Bool)
  | inputOptions (options : List String)
  | output (dst : Dst)
  | outputOptions (options : List String)
  | noAudio
  | audioCodec (codec : String)
  | audioBitrate (bitrate : Bitrate)
  | audioChannels (count : JsNum)
  | audioFrequency (freq : JsNum)
  | audioQuality (q : JsNum)
  | audioFilters (filters : List Filter)
  | noVideo
  | videoCodec (codec : String)
  | videoBitrate (bitrate : Bitrate)
  | fps (fps : JsNum)
  | frames (count : JsNum)
  | size (size : String)
  | videoFilters (filters : List Filter)
  | duration (dur : Time)
  | seek (start : Time)
  | format (format : String)
  | run
  deriving DecidableEq, Repr

/-- Apply one call to the builder state; a thrown usage error is the
`.error` case (no method mutates state before throwing, so the pre-call
state is the state an error leaves behind). `run`'s returned handle is
dropped, keeping the state. -/
def exec (c : FFmpegCommand) (call : Call) : Except String FFmpegCommand :=
  match call with
  | .input src => .ok (c.input src)
  | .inputFormat f => c.inputFormat f
  | .inputFPS n => c.inputFPS n
  | .native => c.native
  | .seekInput t => c.seekInput t
  | .loop b => c.loop b
  | .inputOptions opts => c.inputOptions opts
  | .output dst => .ok (c.output dst)
  | .outputOptions opts => c.outputOptions opts
  | .noAudio => c.noAudio
  | .audioCodec s => c.audioCodec s
  | .audioBitrate b => c.audioBitrate b
  | .audioChannels n => c.audioChannels n
  | .audioFrequency n => c.audioFrequency n
  | .audioQuality n => c.audioQuality n
  | .audioFilters fs => c.audioFilters fs
  | .noVideo => c.noVideo
  | .videoCodec s => c.videoCodec s
  | .videoBitrate b => c.videoBitrate b
  | .fps n => c.fps n
  | .frames n => c.frames n
  | .size s => c.size s
  | .videoFilters fs => c.videoFilters fs
  | .duration t => c.duration t
  | .seek t => c.seek t
  | .format s => c.format s
  | .run => (c.run).map (·.2)

/-- Apply one call with the thrown error caught by the caller: the state is
unchanged on error. -/
def execCaught (c : FFmpegCommand) (call : Call) : FFmpegCommand :=
  match exec c call with
  | .ok c' => c'
  | .error _ => c

/-- Apply a call sequence, errors caught. -/
def execTrace (c : FFmpegCommand) (calls : List Call) : FFmpegCommand :=
  calls.foldl execCaught c

/-! ## The stream bridge (`NamedPipeStream`, src/unnamed/part_000) -/

/-- Externally visible events at one channel endpoint: an inbound connection
attempt, the bridged in-process stream emitting `close` (the constructor
registers `stream.on("close", () => this._server.close())`), and an explicit
`close()` call on the bridge. -/
inductive BridgeEvent where
  | connect
  | streamClose
  | close
  deriving DecidableEq, Repr

/-- State of one endpoint: whether the acceptor (`net.Server`) is still
listening, and how many inbound connections have been handed to the
`onSocket` connection listener. -/
structure BridgeState where
  listening : Bool
  serviced : Nat
  deriving DecidableEq, Repr

/-- State right after the `NamedPipeStream` constructor: the acceptor
listens, nothing serviced yet. -/
def BridgeState.init : BridgeState := ⟨true, 0⟩

/-- One event step. `net.createServer(onSocket)` invokes the connection
listener for every connection accepted while listening — the source sets no
connection limit and never closes the acceptor upon a connection. Both close
paths call `net.Server.close`, which stops the acceptor and, on an already
closed server, merely reports through the optional callback (none is
passed), so a repeated close is a no-op rather than a fault. -/
def bridgeStep (s : BridgeState) (e : BridgeEvent) : BridgeState :=
  match e with
  | .connect => if s.listening then { s with serviced := s.serviced + 1 } else s
  | .streamClose => { s with listening := false }
  | .close => { s with listening := false }

/-- Run an event sequence from a state. -/
def bridgeRun (s : BridgeState) (es : List BridgeEvent) : BridgeState :=
  es.foldl bridgeStep s

/-! ## General helper facts -/

instance {ε α : Type} [DecidableEq ε] [DecidableEq α] : DecidableEq (Except ε α) := fun x y =>
  match x, y with
  | .error a, .error b =>
    if h : a = b then isTrue (by rw [h]) else isFalse (fun hc => by cases hc; exact h rfl)
  | .ok a, .ok b =>
    if h : a = b then isTrue (by rw [h]) else isFalse (fun hc => by cases hc; exact h rfl)
  | .error _, .ok _ => isFalse (fun hc => by cases hc)
  | .ok _, .error _ => isFalse (fun hc => by cases hc)

theorem foldl_append_tokens {α : Type} (f : α → List String) :
    ∀ (xs : List α) (acc : List String),
      xs.foldl (fun args x => args ++ f x) acc = acc ++ (xs.map f).flatten
  | [], acc => by simp
  | x :: xs, acc => by
    simp [List.foldl_cons, foldl_append_tokens f xs]

/-- The imperative arg assembly of `run` splits into per-input groups
followed by per-output groups, in list (= insertion) order. -/
theorem buildArgs_eq_flatten (inputs : List InputSettings) (outputs : List OutputSettings) :
    buildArgs inputs outputs =
      (inputs.map inputTokens).flatten ++ (outputs.map outputTokens).flatten := by
  unfold buildArgs
  rw [foldl_append_tokens, foldl_append_tokens]
  simp

/-- A convenient concrete builder: one file input `a`, one file output `b`. -/
def cmdAB : FFmpegCommand :=
  execTrace (mkCommand none) [.input (.file "a"), .output (.file "b")]

/-! ## Claims -/

/-- C1: whenever `run()` succeeds in producing an argument vector, that
vector is the concatenation of one token group per input followed by one
token group per output, groups in insertion order; each input group is
exactly extra raw options, `-f`, `-r`, `-re`, `-ss`, loop flag, then
`-i` source (path or bridge address), and each output group is exactly
`-f`, `-ss`, `-t`, audio block, video block, extra raw options, then the
destination, each segment present only per its guard. -/
theorem C1_run_arg_ordering (c : FFmpegCommand) (args : List String) (c' : FFmpegCommand)
    (h : FFmpegCommand.run c = .ok (args, c')) :
    args = (c.inputs.map inputTokens).flatten ++ (c.outputs.map outputTokens).flatten ∧
    (∀ i : InputSettings, inputTokens i =
      (match i.extraOpts with | some opts => opts | none => [])
      ++ optStr i.format (fun f => ["-f", f])
      ++ optNum i.fps (fun fps => ["-r", fps.toStr])
      ++ (if i.readrateNative = some true then ["-re"] else [])
      ++ (match i.startTime with
          | some t => if t.truthy then ["-ss", t.toStr] else []
          | none => [])
      ++ (if i.loop = some true then ["-loop", "-1"] else [])
      ++ (match i.src with
          | .file p => ["-i", p]
          | .stream url => ["-i", url])) ∧
    (∀ o : OutputSettings, outputTokens o =
      optStr o.format (fun f => ["-f", f])
      ++ (match o.startTime with
          | some t => if t.truthy then ["-ss", t.toStr] else []
          | none => [])
      ++ (match o.duration with
          | some t => if t.truthy then ["-t", t.toStr] else []
          | none => [])
      ++ audioArgs o.audio
      ++ videoArgs o.video
      ++ (match o.extraOpts with | some opts => opts | none => [])
      ++ (match o.dst with
          | .file p => [p]
          | .stream url => [url])) := by
  refine ⟨?_, fun i => rfl, fun o => rfl⟩
  unfold FFmpegCommand.run at h
  split_ifs at h
  cases h
  exact buildArgs_eq_flatten _ _

/-- Witness for C1 at a concrete successful run. -/
theorem C1_run_arg_ordering_witness :
    (["-i", "a", "b"] : List String) =
      (cmdAB.inputs.map inputTokens).flatten ++ (cmdAB.outputs.map outputTokens).flatten :=
  (C1_run_arg_ordering cmdAB ["-i", "a", "b"] { cmdAB with procSet := true } (by decide)).1

set_option maxRecDepth 8000 in
/-- C4: the size parser maps `"1280x720"`, `"1280x?"`, `"?x720"`, `"50%"`
to the stored values the claim states; it rejects `"0%"` (percentage ≤ 0),
`"abc"` (missing height token), `"?x?"` (both auto), `"0x100"`
(non-positive explicit dimension); it rejects every percentage whose parsed
number is not finite — including literals such as `"2e308%"` that saturate
to `Infinity` — and every percentage that is ≤ 0 — including literals such
as `"1e-400%"` that underflow to `0`; it rejects every explicit width or
height parsing to `NaN`; and the `size` method raises the validation error
as-is, before any video setting is stored (so before any argument could be
emitted). -/
theorem C4_size_parsing :
    parseSize "1280x720" = .ok (.wh (some (JsNum.ofInt 1280)) (some (JsNum.ofInt 720))) ∧
    parseSize "1280x?" = .ok (.wh (some (JsNum.ofInt 1280)) none) ∧
    parseSize "?x720" = .ok (.wh none (some (JsNum.ofInt 720))) ∧
    parseSize "50%" = .ok (.percent (JsNum.ofInt 50)) ∧
    parseSize "0%" = .error "Invalid size: 0%" ∧
    parseSize "abc" = .error "Invalid size: abc" ∧
    parseSize "?x?" = .error "Width and height can't both be unknown" ∧
    parseSize "0x100" = .error "Invalid width: 0" ∧
    parseSize "2e308%" = .error "Invalid size: 2e308%" ∧
    parseSize "1e-400%" = .error "Invalid size: 1e-400%" ∧
    (∀ s : String, endsWithPercent s = true →
      (jsParseFloat (dropLastChar s)).isFinite = false →
      parseSize s = .error ("Invalid size: " ++ s)) ∧
    (∀ (s : String) (p : JsNum), endsWithPercent s = true →
      jsParseFloat (dropLastChar s) = p → p.nonpos = true →
      parseSize s = .error ("Invalid size: " ++ s)) ∧
    (∀ (s ws hs : String) (rest : List String), endsWithPercent s = false →
      jsSplit s 'x' = ws :: hs :: rest → ws ≠ "" → hs ≠ "" →
      ws ≠ "?" → (jsParseInt ws).isNaN = true →
      parseSize s = .error ("Invalid width: " ++ ws)) ∧
    (∀ (s ws hs : String) (rest : List String), endsWithPercent s = false →
      jsSplit s 'x' = ws :: hs :: rest → ws ≠ "" → hs ≠ "" →
      (ws = "?" ∨ ((jsParseInt ws).isNaN = false ∧ (jsParseInt ws).nonpos = false)) →
      hs ≠ "?" → (jsParseInt hs).isNaN = true →
      parseSize s = .error ("Invalid height: " ++ hs)) ∧
    (∀ (c : FFmpegCommand) (s e : String), parseSize s = .error e →
      FFmpegCommand.size c s = .error e) := by
  refine ⟨by decide, by decide, by decide, by decide, by decide, by decide, by decide, by decide,
    by decide, by decide, ?_, ?_, ?_, ?_, ?_⟩
  · intro s h1 h2
    simp [parseSize, h1, h2]
  · intro s p h1 h2 h3
    simp [parseSize, h1, h2, h3]
  · intro s ws hs rest h1 h2 h3 h4 h5 h6
    simp [parseSize, h1, h2, h3, h4, h5, h6]
  · intro s ws hs rest h1 h2 h3 h4 h5 h6 h7
    rcases h5 with h5 | ⟨h5a, h5b⟩
    · simp [parseSize, h1, h2, h3, h4, h5, h6, h7]
    · by_cases hq : ws = "?"
      · simp [parseSize, h1, h2, h3, h4, hq, h6, h7]
      · simp [parseSize, h1, h2, h3, h4, hq, h5a, h5b, h6, h7]
  · intro c s e h
    simp [FFmpegCommand.size, h]

set_option maxRecDepth 8000 in
/-- Witness for C4: the saturating-percentage rejection applied at the
concrete input `"2e308%"` (parsed number overflows to `Infinity`). -/
theorem C4_size_parsing_witness :
    parseSize "2e308%" = .error "Invalid size: 2e308%" :=
  C4_size_parsing.2.2.2.2.2.2.2.2.2.2.1 "2e308%" (by decide) (by decide)

/-- The flag segment of a video block preceding the filter flag: codec,
bitrate, frame rate, frame cap. -/
def videoFlagTokens (v : VideoSettings) : List String :=
  optStr v.codec (fun c => ["-c:v", c])
  ++ (match v.bitrate with
      | some b => if b.truthy then ["-b:v", b.toStr] else []
      | none => [])
  ++ optNum v.fps (fun fps => ["-r", fps.toStr])
  ++ optNum v.frames (fun n => ["-frames:v", n.toStr])

/-- The combined filter list `run` resolves: explicit filters followed by
the size-derived scale filter. -/
def resolvedFilters (v : VideoSettings) : List Filter :=
  (match v.filters with | some fs => fs | none => [])
  ++ (match v.size with | some sz => [sizeScaleFilter sz] | none => [])

/-- The video block splits into the plain flags followed by one `-vf` flag
emitted only when the combined filter list is non-empty. -/
theorem videoArgs_decomp (v : VideoSettings) :
    videoArgs (some v) = videoFlagTokens v ++
      (if resolvedFilters v = [] then [] else ["-vf", filtersToString (resolvedFilters v)]) := by
  show videoFlagTokens v ++ _ = _
  congr 1
  rcases h : resolvedFilters v with _ | ⟨f, fs⟩ <;>
    simp only [resolvedFilters] at h <;> simp [h]

/-- C5: an output with a size set gets a `scale` filter appended after its
explicit video filters and emitted inside a single `-vf` flag; a percentage
`P` produces `w`/`h` options `trunc(iw*F/2)*2` where `F` is the binary64
quotient `P/100` in its JS rendering — 50% yields the `0.5` factor, and
8.2% yields `0.08199999999999999` (the double `8.2` divided by 100 is one
ulp below the double `0.082`); explicit dimensions use the given value's JS
rendering with `-2` for a falsy one; a structured filter serializes as
`name=opts` with list options colon-joined and mapping options as
colon-joined `key=value` pairs in insertion order, plain filters as-is,
filters comma-joined; and the `-vf` flag appears exactly when the combined
filter list is non-empty. -/
theorem C5_scale_lowering :
    (∀ (v : VideoSettings) (sz : SizeVal), v.size = some sz →
      videoArgs (some v) = videoFlagTokens v
        ++ ["-vf", filtersToString
              ((match v.filters with | some fs => fs | none => []) ++ [sizeScaleFilter sz])]) ∧
    (∀ p : JsNum, sizeScaleFilter (.percent p) =
      .structured "scale" (.record
        [("w", "trunc(iw*" ++ (JsNum.div100 p).toStr ++ "/2)*2"),
         ("h", "trunc(ih*" ++ (JsNum.div100 p).toStr ++ "/2)*2")])) ∧
    sizeScaleFilter (.percent (JsNum.ofInt 50)) =
      .structured "scale" (.record [("w", "trunc(iw*0.5/2)*2"), ("h", "trunc(ih*0.5/2)*2")]) ∧
    sizeScaleFilter (.percent (jsParseFloat "8.2")) =
      .structured "scale" (.record
        [("w", "trunc(iw*0.08199999999999999/2)*2"),
         ("h", "trunc(ih*0.08199999999999999/2)*2")]) ∧
    (∀ w h : JsNum, w.truthy = true → h.truthy = true →
      sizeScaleFilter (.wh (some w) (some h)) =
        .structured "scale" (.record [("w", w.toStr), ("h", h.toStr)])) ∧
    (∀ w : JsNum, w.truthy = true → sizeScaleFilter (.wh (some w) none) =
      .structured "scale" (.record [("w", w.toStr), ("h", "-2")])) ∧
    (∀ h : JsNum, h.truthy = true → sizeScaleFilter (.wh none (some h)) =
      .structured "scale" (.record [("w", "-2"), ("h", h.toStr)])) ∧
    (∀ fs : List Filter, filtersToString fs = String.intercalate "," (fs.map fun el =>
      match el with
      | .str s => s
      | .structured name opts =>
        name ++ "=" ++ (match opts with
          | .str s => s
          | .list l => String.intercalate ":" l
          | .record kvs => String.intercalate ":" (kvs.map fun kv => kv.1 ++ "=" ++ kv.2)))) ∧
    (∀ v : VideoSettings, videoArgs (some v) = videoFlagTokens v ++
      (if resolvedFilters v = [] then [] else ["-vf", filtersToString (resolvedFilters v)])) := by
  refine ⟨?_, fun p => rfl, by decide, by decide, ?_, ?_, ?_, ?_, videoArgs_decomp⟩
  · intro v sz hsz
    rw [videoArgs_decomp v]
    congr 1
    have h : resolvedFilters v =
        (match v.filters with | some fs => fs | none => []) ++ [sizeScaleFilter sz] := by
      simp [resolvedFilters, hsz]
    rw [h]
    simp
  · intro w h hw hh
    simp [sizeScaleFilter, hw, hh]
  · intro w hw
    simp [sizeScaleFilter, hw]
  · intro h hh
    simp [sizeScaleFilter, hh]
  · intro fs
    simp [filtersToString]

/-- Witness for C5: a video settings object holding only `size: 50%` lowers
to the single even-truncating scale filter flag. -/
theorem C5_scale_lowering_witness :
    videoArgs (some { size := some (.percent (JsNum.ofInt 50)) }) =
      videoFlagTokens { size := some (.percent (JsNum.ofInt 50)) }
      ++ ["-vf", filtersToString [sizeScaleFilter (.percent (JsNum.ofInt 50))]] :=
  C5_scale_lowering.1 { size := some (.percent (JsNum.ofInt 50)) } (.percent (JsNum.ofInt 50)) rfl

/-- For a positive maximum, one buffer update keeps exactly the most recent
`min (length) M` lines: stepping the canonical suffix state stays
canonical. -/
theorem processLine_pos (M : Int) (hM : 0 < M) (p : List String) (l : String) :
    processLine M (p.drop (p.length - M.toNat)) l =
      (p ++ [l]).drop ((p ++ [l]).length - M.toNat) := by
  unfold processLine
  simp only [List.length_append, List.length_drop, List.length_singleton]
  split_ifs with hcond
  · obtain ⟨-, hgt⟩ := hcond
    have hdropn : ((↑(p.length - (p.length - M.toNat) + 1) : Int) - M).toNat = 1 := by omega
    rw [hdropn, List.drop_append_eq_append_drop, List.drop_append_eq_append_drop,
      List.drop_drop]
    have e1 : p.length - M.toNat + 1 = p.length + 1 - M.toNat := by omega
    have e2 : 1 - (List.drop (p.length - M.toNat) p).length = 0 := by
      simp only [List.length_drop]
      omega
    have e3 : p.length + 1 - M.toNat - p.length = 0 := by omega
    rw [e1, e2, e3]
  · push_neg at hcond
    have hgt := hcond (by omega)
    have h0 : p.length - M.toNat = 0 := by omega
    have h1 : p.length + 1 - M.toNat = 0 := by omega
    rw [h0, h1, List.drop_zero, List.drop_zero]

theorem feedAux (M : Int) (hM : 0 < M) :
    ∀ (ls p : List String),
      ls.foldl (processLine M) (p.drop (p.length - M.toNat)) =
        (p ++ ls).drop ((p ++ ls).length - M.toNat)
  | [], p => by simp
  | l :: ls, p => by
    rw [List.foldl_cons, processLine_pos M hM p l]
    simpa [List.append_assoc] using feedAux M hM ls (p ++ [l])

/-- With a positive maximum `M` the buffer after any fed sequence is exactly
the suffix of the most recent `min (length) M` lines. -/
theorem feedLines_pos (M : Int) (hM : 0 < M) (ls : List String) :
    feedLines M ls = ls.drop (ls.length - M.toNat) := by
  simpa [feedLines] using feedAux M hM ls []

/-- With maximum `0` (falsy) the trim guard never fires: the buffer is the
whole fed sequence. -/
theorem feedLines_zero : ∀ (ls acc : List String), ls.foldl (processLine 0) acc = acc ++ ls
  | [], acc => by simp
  | l :: ls, acc => by
    rw [List.foldl_cons]
    have hstep : processLine 0 acc l = acc ++ [l] := by
      unfold processLine
      rw [if_neg]
      push_neg
      intro h
      exact absurd rfl h
    rw [hstep, feedLines_zero ls (acc ++ [l])]
    simp

/-- With a negative maximum the guard fires on every line (a negative value
is truthy and every length exceeds it) and the slice start
`length - stdoutLines` exceeds the length, emptying the buffer. -/
theorem processLine_neg (M : Int) (hM : M < 0) (l : String) :
    processLine M [] l = [] := by
  unfold processLine
  rw [if_pos ⟨by omega, by simp; omega⟩]
  apply List.drop_eq_nil_of_le
  simp
  omega

/-- C8: with the default configuration (`stdoutLines = 100`) any 150 fed
diagnostic lines leave exactly the last 100 in original relative order; for
every positive maximum `M` the buffer never exceeds `M` lines and is always
the suffix of most-recent lines; a `0` (falsy) maximum disables capping; the
constructor default is 100; and the instance's `processStderr` updates its
buffer by exactly this rule. -/
theorem C8_ring_buffer :
    (∀ ls : List String, ls.length = 150 → feedLines 100 ls = ls.drop 50) ∧
    (∀ M : Int, 0 < M → ∀ ls : List String,
      (feedLines M ls).length ≤ M.toNat ∧
      feedLines M ls = ls.drop (ls.length - M.toNat)) ∧
    (∀ ls : List String, feedLines 0 ls = ls) ∧
    (mkCommand none).stdoutLines = 100 ∧
    (∀ (c : FFmpegCommand) (line : String),
      (FFmpegCommand.processStderr c line).stderrLines =
        processLine c.stdoutLines c.stderrLines line) := by
  refine ⟨?_, ?_, ?_, by decide, fun c line => rfl⟩
  · intro ls h
    rw [feedLines_pos 100 (by omega) ls, h]
    congr 1
  · intro M hM ls
    refine ⟨?_, feedLines_pos M hM ls⟩
    rw [feedLines_pos M hM ls]
    simp
    omega
  · intro ls
    simpa using feedLines_zero ls []

/-- Witness for C8: maximum 2 over five lines keeps the last two. -/
theorem C8_ring_buffer_witness :
    (feedLines 2 ["a", "b", "c", "d", "e"]).length ≤ (2 : Int).toNat ∧
    feedLines 2 ["a", "b", "c", "d", "e"] =
      ["a", "b", "c", "d", "e"].drop (["a", "b", "c", "d", "e"].length - (2 : Int).toNat) :=
  C8_ring_buffer.2.1 2 (by decide) ["a", "b", "c", "d", "e"]

/-- C3 counterexample: with `stdoutLines = -1` feeding the single line
`"a"` does NOT retain it — the buffer comes out empty, not `["a"]`. -/
theorem C3_counterexample :
    feedLines (-1) ["a"] ≠ ["a"] ∧ feedLines (-1) ["a"] = [] := by decide

/-- C3 (amended): with a negative configured maximum the trim condition
fires on every fed line (a negative number is truthy and the length always
exceeds it) and the slice empties the buffer, so after any sequence of
diagnostic lines the buffer is empty — every line is discarded rather than
retained. -/
theorem C3_negative_max (M : Int) (hM : M < 0) : ∀ ls : List String, feedLines M ls = [] := by
  intro ls
  show ls.foldl (processLine M) [] = []
  induction ls with
  | nil => rfl
  | cons l ls ih => rw [List.foldl_cons, processLine_neg M hM l]; exact ih

/-- Witness for the amended C3 at maximum `-1` and one line. -/
theorem C3_negative_max_witness : feedLines (-1) ["a"] = [] :=
  C3_negative_max (-1) (by decide) ["a"]

/-- Events that close the acceptor (either teardown path). -/
def isCloseEvent : BridgeEvent → Bool
  | .connect => false
  | .streamClose => true
  | .close => true

/-- Once the acceptor is closed it stays closed and no further connection is
serviced. -/
theorem bridgeRun_closed (s : BridgeState) (h : s.listening = false) :
    ∀ es : List BridgeEvent, (bridgeRun s es).serviced = s.serviced ∧
      (bridgeRun s es).listening = false := by
  intro es
  induction es generalizing s with
  | nil => exact ⟨rfl, h⟩
  | cons e es ih =>
    show (bridgeRun (bridgeStep s e) es).serviced = s.serviced ∧
      (bridgeRun (bridgeStep s e) es).listening = false
    cases e with
    | connect =>
      rw [show bridgeStep s .connect = s by simp [bridgeStep, h]]
      exact ih s h
    | streamClose =>
      rw [show bridgeStep s .streamClose = { s with listening := false } by simp [bridgeStep]]
      simpa using ih { s with listening := false } rfl
    | close =>
      rw [show bridgeStep s .close = { s with listening := false } by simp [bridgeStep]]
      simpa using ih { s with listening := false } rfl

/-- While the acceptor listens, every connect event is serviced, up to the
first close event. -/
theorem bridgeRun_open :
    ∀ (es : List BridgeEvent) (s : BridgeState), s.listening = true →
      (bridgeRun s es).serviced =
        s.serviced +
          (es.takeWhile (fun e => !isCloseEvent e)).countP (fun e => decide (e = .connect))
  | [], s, h => by simp [bridgeRun]
  | .connect :: es, s, h => by
    show (bridgeRun (bridgeStep s .connect) es).serviced = _
    rw [show bridgeStep s .connect = { s with serviced := s.serviced + 1 } by
      simp [bridgeStep, h]]
    rw [bridgeRun_open es { s with serviced := s.serviced + 1 } h]
    simp [isCloseEvent, List.countP_cons]
    omega
  | .streamClose :: es, s, h => by
    show (bridgeRun (bridgeStep s .streamClose) es).serviced = _
    have := (bridgeRun_closed { s with listening := false } rfl es).1
    simp [bridgeStep, isCloseEvent, this]
  | .close :: es, s, h => by
    show (bridgeRun (bridgeStep s .close) es).serviced = _
    have := (bridgeRun_closed { s with listening := false } rfl es).1
    simp [bridgeStep, isCloseEvent, this]

/-- C2 counterexample: two connection attempts to a fresh endpoint are BOTH
handed to the connection listener — the serviced count reaches 2, refuting
"at most one peer connection is ever serviced per endpoint". -/
theorem C2_counterexample :
    (bridgeRun .init [.connect, .connect]).serviced = 2 ∧
    ¬(bridgeRun .init [.connect, .connect]).serviced ≤ 1 := by decide

/-- C2 (amended): the endpoint services EVERY inbound connection that
arrives while its acceptor is listening — the serviced count equals the
number of connection events before the first close event (so a second
connection attempt before teardown is serviced too, and attempts after the
acceptor closes are not). -/
theorem C2_connections_serviced (es : List BridgeEvent) :
    (bridgeRun .init es).serviced =
      (es.takeWhile (fun e => !isCloseEvent e)).countP (fun e => decide (e = .connect)) := by
  have := bridgeRun_open es .init rfl
  simpa [BridgeState.init] using this

/-- C9: from any endpoint state, a trace containing the in-process stream's
close event ends with the acceptor closed (even with no explicit `close()`);
a trace containing an explicit `close()` likewise; and the two teardown
paths are idempotent in any combination — a second close is a no-op, not a
fault. -/
theorem C9_teardown :
    (∀ (s : BridgeState) (es : List BridgeEvent), BridgeEvent.streamClose ∈ es →
      (bridgeRun s es).listening = false) ∧
    (∀ (s : BridgeState) (es : List BridgeEvent), BridgeEvent.close ∈ es →
      (bridgeRun s es).listening = false) ∧
    (∀ (s : BridgeState) (e e' : BridgeEvent), isCloseEvent e = true → isCloseEvent e' = true →
      bridgeStep (bridgeStep s e) e' = bridgeStep s e) := by
  have key : ∀ (es : List BridgeEvent) (s : BridgeState),
      (∃ e ∈ es, isCloseEvent e = true) → (bridgeRun s es).listening = false := by
    intro es
    induction es with
    | nil => rintro s ⟨e, he, -⟩; cases he
    | cons e es ih =>
      rintro s ⟨e', he', hce⟩
      rcases List.mem_cons.mp he' with rfl | hmem
      · show (bridgeRun (bridgeStep s e') es).listening = false
        cases e' with
        | connect => cases hce
        | streamClose => exact (bridgeRun_closed _ rfl es).2
        | close => exact (bridgeRun_closed _ rfl es).2
      · exact ih (bridgeStep s e) ⟨e', hmem, hce⟩
  refine ⟨fun s es h => key es s ⟨.streamClose, h, rfl⟩,
    fun s es h => key es s ⟨.close, h, rfl⟩, ?_⟩
  intro s e e' he he'
  cases e <;> cases e' <;> simp_all [bridgeStep, isCloseEvent]

/-- Witness for C9: a trace consisting of only the stream-close event leaves
the fresh endpoint's acceptor closed. -/
theorem C9_teardown_witness :
    (bridgeRun .init [BridgeEvent.streamClose]).listening = false :=
  C9_teardown.1 .init [BridgeEvent.streamClose] (by decide)

/-- No builder call ever clears the run marker: once `_proc` is assigned,
every later call (caught or not) leaves it assigned. -/
theorem execCaught_procSet (c : FFmpegCommand) (call : Call) (h : c.procSet = true) :
    (execCaught c call).procSet = true := by
  cases call <;>
    simp only [execCaught, exec, FFmpegCommand.input, FFmpegCommand.inputFormat,
      FFmpegCommand.inputFPS, FFmpegCommand.native, FFmpegCommand.seekInput, FFmpegCommand.loop,
      FFmpegCommand.inputOptions, FFmpegCommand.output, FFmpegCommand.outputOptions,
      FFmpegCommand.noAudio, FFmpegCommand.audioCodec, FFmpegCommand.audioBitrate,
      FFmpegCommand.audioChannels, FFmpegCommand.audioFrequency, FFmpegCommand.audioQuality,
      FFmpegCommand.audioFilters, FFmpegCommand.noVideo, FFmpegCommand.videoCodec,
      FFmpegCommand.videoBitrate, FFmpegCommand.fps, FFmpegCommand.frames, FFmpegCommand.size,
      FFmpegCommand.videoFilters, FFmpegCommand.duration, FFmpegCommand.seek,
      FFmpegCommand.format, FFmpegCommand.run, FFmpegCommand.withLastInput,
      FFmpegCommand.withLastOutput, FFmpegCommand.setAudioProps, FFmpegCommand.setVideoProps,
      h] <;>
    (repeat' split) <;>
    first
      | rfl
      | exact h
      | (rename_i heq
         (repeat' split at heq) <;> (try cases heq) <;> rfl)

theorem execTrace_procSet (calls : List Call) (c : FFmpegCommand) (h : c.procSet = true) :
    (execTrace c calls).procSet = true := by
  induction calls generalizing c with
  | nil => exact h
  | cons call calls ih =>
    exact ih (execCaught c call) (execCaught_procSet c call h)

/-- A successful `run()` assigns `_proc`. -/
theorem run_sets_procSet (c : FFmpegCommand) (args : List String) (c' : FFmpegCommand)
    (h : FFmpegCommand.run c = .ok (args, c')) : c'.procSet = true := by
  unfold FFmpegCommand.run at h
  split_ifs at h
  cases h
  rfl

/-- `run()` on an instance whose `_proc` is assigned is the usage error. -/
theorem run_procSet_error (c : FFmpegCommand) (h : c.procSet = true) :
    FFmpegCommand.run c = .error "This instance is already run" := by
  unfold FFmpegCommand.run
  rw [if_pos h]

/-- C6 counterexample: `run()` on a fresh builder throws (no inputs) — so
`run()` has been called once — yet after adding an input and an output a
second `run()` call succeeds instead of raising a usage error: the
already-run marker is only set when a run passes validation. -/
theorem C6_counterexample :
    (exec (mkCommand none) .run).isOk = false ∧
    (FFmpegCommand.run (execTrace (mkCommand none)
      [.run, .input (.file "in.mp4"), .output (.file "out.mp4")])).isOk = true := by decide

/-- C6 (amended): a builder on which `run()` has SUCCEEDED (passed
validation and reached the spawn) is run at most once — whatever the
eventual outcome of the spawned process, any later `run()` call, after any
further builder calls, synchronously raises the already-run usage error. -/
theorem C6_run_once (c : FFmpegCommand) (args : List String) (c' : FFmpegCommand)
    (h : FFmpegCommand.run c = .ok (args, c')) (calls : List Call) :
    FFmpegCommand.run (execTrace c' calls) = .error "This instance is already run" :=
  run_procSet_error _ (execTrace_procSet calls c' (run_sets_procSet c args c' h))

/-- Witness for the amended C6: after a successful run of the one-input
one-output builder, an immediate second run raises the usage error. -/
theorem C6_run_once_witness :
    FFmpegCommand.run (execTrace { cmdAB with procSet := true } []) =
      .error "This instance is already run" :=
  C6_run_once cmdAB ["-i", "a", "b"] { cmdAB with procSet := true } (by decide) []

/-- The last output exists and its audio settings carry the disabled
marker. -/
def lastAudioDisabled (c : FFmpegCommand) : Bool :=
  match c.outputs.getLast? with
  | some o => o.audio.isNone
  | none => false

/-- The last output exists and its video settings carry the disabled
marker. -/
def lastVideoDisabled (c : FFmpegCommand) : Bool :=
  match c.outputs.getLast? with
  | some o => o.video.isNone
  | none => false

/-- Whether a call appends a new output (the only call that changes which
output is "current"). -/
def isOutputCall : Call → Bool
  | .output _ => true
  | _ => false

theorem noAudio_disables (c c' : FFmpegCommand) (h : FFmpegCommand.noAudio c = .ok c') :
    lastAudioDisabled c' = true := by
  unfold FFmpegCommand.noAudio FFmpegCommand.withLastOutput at h
  split at h
  · cases h
  · cases h
    simp [lastAudioDisabled, List.getLast?_concat]

theorem noVideo_disables (c c' : FFmpegCommand) (h : FFmpegCommand.noVideo c = .ok c') :
    lastVideoDisabled c' = true := by
  unfold FFmpegCommand.noVideo FFmpegCommand.withLastOutput at h
  split at h
  · cases h
  · cases h
    simp [lastVideoDisabled, List.getLast?_concat]

theorem setAudioProps_disabled (c : FFmpegCommand) (h : lastAudioDisabled c = true)
    (f : AudioSettings → AudioSettings) :
    FFmpegCommand.setAudioProps c f = .error "Audio disabled" := by
  unfold lastAudioDisabled at h
  unfold FFmpegCommand.setAudioProps
  split at h
  case h_1 o heq =>
    simp [heq, Option.isNone_iff_eq_none.mp h]
  case h_2 => cases h

theorem setVideoProps_disabled (c : FFmpegCommand) (h : lastVideoDisabled c = true)
    (f : VideoSettings → VideoSettings) :
    FFmpegCommand.setVideoProps c f = .error "Video disabled" := by
  unfold lastVideoDisabled at h
  unfold FFmpegCommand.setVideoProps
  split at h
  case h_1 o heq =>
    simp [heq, Option.isNone_iff_eq_none.mp h]
  case h_2 => cases h

/-- Any call other than `output` keeps the current output's audio
disabled: audio setters fail without mutating, and no other mutation
touches the last output's audio settings. -/
theorem lastAudioDisabled_preserved (c : FFmpegCommand) (call : Call)
    (hc : isOutputCall call = false) (h : lastAudioDisabled c = true) :
    lastAudioDisabled (execCaught c call) = true := by
  cases call
  case output d => simp [isOutputCall] at hc
  all_goals (
    simp only [execCaught, exec, FFmpegCommand.input, FFmpegCommand.inputFormat,
      FFmpegCommand.inputFPS, FFmpegCommand.native, FFmpegCommand.seekInput, FFmpegCommand.loop,
      FFmpegCommand.inputOptions, FFmpegCommand.outputOptions,
      FFmpegCommand.noAudio, FFmpegCommand.audioCodec, FFmpegCommand.audioBitrate,
      FFmpegCommand.audioChannels, FFmpegCommand.audioFrequency, FFmpegCommand.audioQuality,
      FFmpegCommand.audioFilters, FFmpegCommand.noVideo, FFmpegCommand.videoCodec,
      FFmpegCommand.videoBitrate, FFmpegCommand.fps, FFmpegCommand.frames, FFmpegCommand.size,
      FFmpegCommand.videoFilters, FFmpegCommand.duration, FFmpegCommand.seek,
      FFmpegCommand.format, FFmpegCommand.run, FFmpegCommand.withLastInput,
      FFmpegCommand.withLastOutput, FFmpegCommand.setAudioProps, FFmpegCommand.setVideoProps]
    repeat' split
    all_goals (try (rename_i heq; repeat' split at heq))
    all_goals (try (simp only [Except.map] at heq))
    all_goals (try (cases heq))
    all_goals simp_all [lastAudioDisabled, List.getLast?_concat])

/-- Dual of `lastAudioDisabled_preserved` for the video track. -/
theorem lastVideoDisabled_preserved (c : FFmpegCommand) (call : Call)
    (hc : isOutputCall call = false) (h : lastVideoDisabled c = true) :
    lastVideoDisabled (execCaught c call) = true := by
  cases call
  case output d => simp [isOutputCall] at hc
  all_goals (
    simp only [execCaught, exec, FFmpegCommand.input, FFmpegCommand.inputFormat,
      FFmpegCommand.inputFPS, FFmpegCommand.native, FFmpegCommand.seekInput, FFmpegCommand.loop,
      FFmpegCommand.inputOptions, FFmpegCommand.outputOptions,
      FFmpegCommand.noAudio, FFmpegCommand.audioCodec, FFmpegCommand.audioBitrate,
      FFmpegCommand.audioChannels, FFmpegCommand.audioFrequency, FFmpegCommand.audioQuality,
      FFmpegCommand.audioFilters, FFmpegCommand.noVideo, FFmpegCommand.videoCodec,
      FFmpegCommand.videoBitrate, FFmpegCommand.fps, FFmpegCommand.frames, FFmpegCommand.size,
      FFmpegCommand.videoFilters, FFmpegCommand.duration, FFmpegCommand.seek,
      FFmpegCommand.format, FFmpegCommand.run, FFmpegCommand.withLastInput,
      FFmpegCommand.withLastOutput, FFmpegCommand.setAudioProps, FFmpegCommand.setVideoProps]
    repeat' split
    all_goals (try (rename_i heq; repeat' split at heq))
    all_goals (try (simp only [Except.map] at heq))
    all_goals (try (cases heq))
    all_goals simp_all [lastVideoDisabled, List.getLast?_concat])

theorem execTrace_lastAudioDisabled (calls : List Call)
    (hcalls : ∀ call ∈ calls, isOutputCall call = false) (c : FFmpegCommand)
    (h : lastAudioDisabled c = true) : lastAudioDisabled (execTrace c calls) = true := by
  induction calls generalizing c with
  | nil => exact h
  | cons call calls ih =>
    exact ih (fun x hx => hcalls x (List.mem_cons_of_mem _ hx)) (execCaught c call)
      (lastAudioDisabled_preserved c call (hcalls call (List.mem_cons_self _ _)) h)

theorem execTrace_lastVideoDisabled (calls : List Call)
    (hcalls : ∀ call ∈ calls, isOutputCall call = false) (c : FFmpegCommand)
    (h : lastVideoDisabled c = true) : lastVideoDisabled (execTrace c calls) = true := by
  induction calls generalizing c with
  | nil => exact h
  | cons call calls ih =>
    exact ih (fun x hx => hcalls x (List.mem_cons_of_mem _ hx)) (execCaught c call)
      (lastVideoDisabled_preserved c call (hcalls call (List.mem_cons_self _ _)) h)

/-- `output(dst)` appends a fresh output with audio and video both enabled
at defaults. -/
theorem output_fresh (c : FFmpegCommand) (d : Dst) :
    (FFmpegCommand.output c d).outputs.getLast? =
      some { dst := d, audio := some {}, video := some {} } := by
  simp [FFmpegCommand.output, List.getLast?_concat]

theorem setAudioProps_after_output (c : FFmpegCommand) (d : Dst)
    (f : AudioSettings → AudioSettings) :
    (FFmpegCommand.setAudioProps (FFmpegCommand.output c d) f).isOk = true := by
  unfold FFmpegCommand.setAudioProps
  rw [output_fresh]
  rfl

theorem setVideoProps_after_output (c : FFmpegCommand) (d : Dst)
    (f : VideoSettings → VideoSettings) :
    (FFmpegCommand.setVideoProps (FFmpegCommand.output c d) f).isOk = true := by
  unfold FFmpegCommand.setVideoProps
  rw [output_fresh]
  rfl

/-- C7: after `noAudio()` (resp. `noVideo()`) succeeds on the current
output, every audio-setting (resp. video-setting) mutation — all of
`audioCodec`/`audioBitrate`/`audioChannels`/`audioFrequency`/`audioQuality`/
`audioFilters` go through `setAudioProps`, and all of `videoCodec`/
`videoBitrate`/`fps`/`frames`/`size`/`videoFilters` through
`setVideoProps`, as the listed equations state — raises the "disabled"
usage error, through any further sequence of non-`output` calls; calling
`output()` appends a fresh output with audio and video enabled at
defaults, and the same setting calls succeed against it. -/
theorem C7_disabled_tracks :
    (∀ (c c' : FFmpegCommand), FFmpegCommand.noAudio c = .ok c' →
      ∀ calls : List Call, (∀ call ∈ calls, isOutputCall call = false) →
        (∀ f, FFmpegCommand.setAudioProps (execTrace c' calls) f = .error "Audio disabled") ∧
        (∀ (d : Dst) (f : AudioSettings → AudioSettings),
          (FFmpegCommand.setAudioProps (FFmpegCommand.output (execTrace c' calls) d) f).isOk
            = true)) ∧
    (∀ (c c' : FFmpegCommand), FFmpegCommand.noVideo c = .ok c' →
      ∀ calls : List Call, (∀ call ∈ calls, isOutputCall call = false) →
        (∀ f, FFmpegCommand.setVideoProps (execTrace c' calls) f = .error "Video disabled") ∧
        (∀ (d : Dst) (f : VideoSettings → VideoSettings),
          (FFmpegCommand.setVideoProps (FFmpegCommand.output (execTrace c' calls) d) f).isOk
            = true)) ∧
    (∀ (c : FFmpegCommand) (d : Dst),
      (FFmpegCommand.output c d).outputs.getLast? =
        some { dst := d, audio := some {}, video := some {} }) ∧
    (∀ (c : FFmpegCommand) (s : String), FFmpegCommand.audioCodec c s =
      FFmpegCommand.setAudioProps c (fun a => { a with codec := some s })) ∧
    (∀ (c : FFmpegCommand) (b : Bitrate), FFmpegCommand.audioBitrate c b =
      FFmpegCommand.setAudioProps c (fun a => { a with bitrate := some b })) ∧
    (∀ (c : FFmpegCommand) (n : JsNum), FFmpegCommand.audioChannels c n =
      FFmpegCommand.setAudioProps c (fun a => { a with channels := some n })) ∧
    (∀ (c : FFmpegCommand) (n : JsNum), FFmpegCommand.audioFrequency c n =
      FFmpegCommand.setAudioProps c (fun a => { a with freq := some n })) ∧
    (∀ (c : FFmpegCommand) (n : JsNum), FFmpegCommand.audioQuality c n =
      FFmpegCommand.setAudioProps c (fun a => { a with quality := some n })) ∧
    (∀ (c : FFmpegCommand) (fs : List Filter), FFmpegCommand.audioFilters c fs =
      FFmpegCommand.setAudioProps c
        (fun a => { a with filters := some (a.filters.getD [] ++ fs) })) ∧
    (∀ (c : FFmpegCommand) (s : String), FFmpegCommand.videoCodec c s =
      FFmpegCommand.setVideoProps c (fun v => { v with codec := some s })) ∧
    (∀ (c : FFmpegCommand) (b : Bitrate), FFmpegCommand.videoBitrate c b =
      FFmpegCommand.setVideoProps c (fun v => { v with bitrate := some b })) ∧
    (∀ (c : FFmpegCommand) (n : JsNum), FFmpegCommand.fps c n =
      FFmpegCommand.setVideoProps c (fun v => { v with fps := some n })) ∧
    (∀ (c : FFmpegCommand) (n : JsNum), FFmpegCommand.frames c n =
      FFmpegCommand.setVideoProps c (fun v => { v with frames := some n })) ∧
    (∀ (c : FFmpegCommand) (fs : List Filter), FFmpegCommand.videoFilters c fs =
      FFmpegCommand.setVideoProps c
        (fun v => { v with filters := some (v.filters.getD [] ++ fs) })) ∧
    (∀ (c : FFmpegCommand) (s : String) (val : SizeVal), parseSize s = .ok val →
      FFmpegCommand.size c s =
        FFmpegCommand.setVideoProps c (fun v => { v with size := some val })) := by
  refine ⟨?_, ?_, output_fresh, fun c s => rfl, fun c b => rfl, fun c n => rfl, fun c n => rfl,
    fun c n => rfl, fun c fs => rfl, fun c s => rfl, fun c b => rfl, fun c n => rfl,
    fun c n => rfl, fun c fs => rfl, ?_⟩
  · intro c c' h calls hcalls
    have hd := execTrace_lastAudioDisabled calls hcalls c' (noAudio_disables c c' h)
    exact ⟨fun f => setAudioProps_disabled _ hd f,
      fun d f => setAudioProps_after_output _ d f⟩
  · intro c c' h calls hcalls
    have hd := execTrace_lastVideoDisabled calls hcalls c' (noVideo_disables c c' h)
    exact ⟨fun f => setVideoProps_disabled _ hd f,
      fun d f => setVideoProps_after_output _ d f⟩
  · intro c s val h
    simp [FFmpegCommand.size, h]

/-- Witness for C7: after `noAudio()` on the one-output builder, an
immediate `audioCodec` mutation raises the "Audio disabled" error. -/
theorem C7_disabled_tracks_witness :
    FFmpegCommand.setAudioProps
      (execTrace { cmdAB with
        outputs := [{ dst := Dst.file "b", audio := none, video := some {} }] } [])
      (fun a => { a with codec := some "aac" }) = .error "Audio disabled" :=
  (C7_disabled_tracks.1 cmdAB
    { cmdAB with outputs := [{ dst := Dst.file "b", audio := none, video := some {} }] }
    (by decide) [] (by simp)).1 (fun a => { a with codec := some "aac" })

/-- C10: every flag-emission guard in `run` tests JS truthiness of the
stored value, not whether the setting was made: a numeric setting stored as
0 (`inputFPS(0)`, `seekInput(0)`, `audioBitrate(0)`, `audioChannels(0)`,
`audioFrequency(0)`, `audioQuality(0)`, `fps(0)`, `frames(0)`, `seek(0)`,
`duration(0)`) or a format stored as the empty string produces exactly the
tokens of the corresponding unset setting — the flag is silently absent
from the assembled argument vector. -/
theorem C10_truthy_guards :
    (∀ i : InputSettings, inputTokens { i with fps := some (JsNum.ofInt 0) } =
      inputTokens { i with fps := none }) ∧
    (∀ i : InputSettings, inputTokens { i with startTime := some (.num (JsNum.ofInt 0)) } =
      inputTokens { i with startTime := none }) ∧
    (∀ i : InputSettings, inputTokens { i with format := some "" } =
      inputTokens { i with format := none }) ∧
    (∀ o : OutputSettings, outputTokens { o with format := some "" } =
      outputTokens { o with format := none }) ∧
    (∀ o : OutputSettings, outputTokens { o with startTime := some (.num (JsNum.ofInt 0)) } =
      outputTokens { o with startTime := none }) ∧
    (∀ o : OutputSettings, outputTokens { o with duration := some (.num (JsNum.ofInt 0)) } =
      outputTokens { o with duration := none }) ∧
    (∀ a : AudioSettings, audioArgs (some { a with bitrate := some (.num (JsNum.ofInt 0)) }) =
      audioArgs (some { a with bitrate := none })) ∧
    (∀ a : AudioSettings, audioArgs (some { a with channels := some (JsNum.ofInt 0) }) =
      audioArgs (some { a with channels := none })) ∧
    (∀ a : AudioSettings, audioArgs (some { a with freq := some (JsNum.ofInt 0) }) =
      audioArgs (some { a with freq := none })) ∧
    (∀ a : AudioSettings, audioArgs (some { a with quality := some (JsNum.ofInt 0) }) =
      audioArgs (some { a with quality := none })) ∧
    (∀ v : VideoSettings, videoArgs (some { v with fps := some (JsNum.ofInt 0) }) =
      videoArgs (some { v with fps := none })) ∧
    (∀ v : VideoSettings, videoArgs (some { v with frames := some (JsNum.ofInt 0) }) =
      videoArgs (some { v with frames := none })) := by
  refine ⟨?_, ?_, ?_, ?_, ?_, ?_, ?_, ?_, ?_, ?_, ?_, ?_⟩ <;>
    intro x <;>
    simp [inputTokens, outputTokens, audioArgs, videoArgs, optNum, optStr, JsNum.truthy,
      JsNum.ofInt, Time.truthy, Bitrate.truthy]

end FFS
